import Mathlib

/-!
Verification development for the room broadcast engine of the chat backend:
a shallow embedding of `service/src/api/chats/router.rs` (the websocket
session: join, history hydration, inbound and outbound pumps, room
registry lifecycle), `service/src/api/chats/schemas.rs` (the wire shapes)
and `scylladb/src/lib.rs` (the `ChatMessageStore` operations), together
with theorems settling the specification's claims about them.

Modelling conventions: UUIDs are natural numbers below 2 to the 128th;
timestamps are integers (milliseconds since epoch, the precision of the
store's TIMESTAMP column); machine-integer casts are explicit `mod`
arithmetic; the randomness of `Uuid::new_v4` and the clock are injected
arguments; the outcome of a fallible store call is an explicit
`CreateResult` argument to the pump step.
-/

/-- UUIDs (`uuid::Uuid`, 128-bit values) modelled as natural numbers. -/
abbrev Uuid := Nat

/-- `Uuid::nil()`: the all-zero UUID, the sentinel author of join
announcements in `router.rs` line 110. -/
def uuidNil : Uuid := 0

/-- `Uuid::new_v4()` (used by `ChatMessageStore::create_message`): a freshly
drawn 128-bit random value with the version nibble (bits 76..79) forced to 4
and the variant field (bits 62..63) forced to binary 10, per RFC 4122.
The randomness is an injected 128-bit entropy value. -/
def uuidNewV4 (entropy : Nat) : Uuid :=
  let r := entropy % 2 ^ 128
  (r / 2 ^ 80) * 2 ^ 80 + 4 * 2 ^ 76 + ((r / 2 ^ 64) % 2 ^ 12) * 2 ^ 64
    + 2 * 2 ^ 62 + r % 2 ^ 62

/-- The version nibble of a UUID (bits 76..79 of the 128-bit value). -/
def uuidVersion (u : Uuid) : Nat := (u / 2 ^ 76) % 2 ^ 4

/-- The string rendering of a UUID (`Uuid::to_string`), modelled as a
rendering of the underlying value; only its use as a display string
matters here. -/
def uuidRender (u : Uuid) : String := toString u

/-- The `as u64` cast of an `i64` value (`timestamp_millis() as u64` in
`router.rs`): two's-complement reinterpretation, i.e. the value modulo
2 to the 64th. -/
def u64_of_i64 (x : Int) : Nat := (x % 2 ^ 64).toNat

/-- `ChatMessage` (scylladb/src/lib.rs lines 15-24): one row of the
`messages` table. `created_at`/`updated_at` are milliseconds since epoch. -/
structure ChatMessage where
  message_id : Uuid
  chat_id : Uuid
  user_id : Uuid
  content : String
  created_at : Int
  updated_at : Option Int
  is_deleted : Bool
deriving DecidableEq

/-- `MessagePayload` (service/src/api/chats/schemas.rs lines 12-18): the
outbound event shape, also embedded in the inbound `Chat` command. Field
names are exactly the Rust struct's field names (the serde derive carries
no rename attribute on this struct). -/
structure MessagePayload where
  user_id : Uuid
  username : String
  text : String
  ts : Nat
deriving DecidableEq

/-- `ClientKind` (schemas.rs lines 5-10): the two inbound command shapes,
`{"type":"join", ...}` and `{"type":"chat", ...}` after the snake_case
serde rename. -/
inductive ClientKind
  | join (username : String)
  | chat (message : MessagePayload)
deriving DecidableEq

/-- A JSON scalar as serde emits it for the fields of `MessagePayload`:
UUIDs and texts as strings, `ts` as a number. -/
inductive JsonVal
  | str (s : String)
  | num (n : Nat)
deriving DecidableEq

/-- The field list of `serde_json::to_string(&payload)` for a
`MessagePayload`: the derived `Serialize` emits one member per struct
field, keyed by the declared field name, in declaration order. -/
def MessagePayload.jsonFields (p : MessagePayload) : List (String × JsonVal) :=
  [("user_id", JsonVal.str (uuidRender p.user_id)),
   ("username", JsonVal.str p.username),
   ("text", JsonVal.str p.text),
   ("ts", JsonVal.num p.ts)]

/-- The `MessagePayload` the websocket handler builds from a stored row
(`router.rs` lines 53-58, 111-116 and 136-141): `user_id` carries the
store-assigned `message_id`, `ts` the store-assigned `created_at` in
milliseconds cast `as u64`; `username` and `text` are supplied by the
call site. -/
def payloadFromRow (db_msg : ChatMessage) (username text : String) : MessagePayload :=
  { user_id := db_msg.message_id
    username := username
    text := text
    ts := u64_of_i64 db_msg.created_at }

/-- Rust `char::is_whitespace`: the Unicode `White_Space` property
(the 25 code points with that property). -/
def rustIsWhitespace (c : Char) : Bool :=
  c.toNat = 0x9 || c.toNat = 0xA || c.toNat = 0xB || c.toNat = 0xC ||
  c.toNat = 0xD || c.toNat = 0x20 || c.toNat = 0x85 || c.toNat = 0xA0 ||
  c.toNat = 0x1680 || (0x2000 ≤ c.toNat && c.toNat ≤ 0x200A) ||
  c.toNat = 0x2028 || c.toNat = 0x2029 || c.toNat = 0x202F ||
  c.toNat = 0x205F || c.toNat = 0x3000

/-- Rust `str::trim`: remove leading and trailing `White_Space` characters. -/
def rustTrim (s : String) : String :=
  ⟨((s.data.dropWhile rustIsWhitespace).reverse.dropWhile rustIsWhitespace).reverse⟩

/-- The UTF-8 encoded size of one scalar value, as Rust's `str` stores it. -/
def charUtf8Size (c : Char) : Nat :=
  if c.toNat < 0x80 then 1
  else if c.toNat < 0x800 then 2
  else if c.toNat < 0x10000 then 3
  else 4

/-- Rust `str::len`: the length of the string in UTF-8 BYTES (not
characters). -/
def utf8Len (s : String) : Nat := s.data.foldl (fun n c => n + charUtf8Size c) 0

/-- `ChatMessageStore::get_chat_messages` (scylladb/src/lib.rs lines
203-224): `SELECT .. FROM messages WHERE chat_id = ? LIMIT ?`. The table is
declared `PRIMARY KEY ((chat_id), created_at, message_id) WITH CLUSTERING
ORDER BY (created_at DESC)`, so the partition's rows arrive most-recent
first; `db` stands for the table's rows with each partition's rows in that
clustering order, and the limit cuts the result set after the partition
filter. No soft-delete filter is applied by this query. -/
def get_chat_messages (db : List ChatMessage) (chat_id : Uuid) (limit : Nat) :
    List ChatMessage :=
  (db.filter (fun m => m.chat_id == chat_id)).take limit

/-- The clustering order of the `messages` table within one partition:
`created_at DESC`, ties broken by `message_id` ASC. -/
def clusterOrder (a b : ChatMessage) : Prop :=
  b.created_at < a.created_at ∨
    (b.created_at = a.created_at ∧ a.message_id < b.message_id)

instance : IsTrans ChatMessage clusterOrder where
  trans a b c hab hbc := by
    simp only [clusterOrder] at hab hbc ⊢
    rcases hab with h1 | h1 <;> rcases hbc with h2 | h2
    · exact Or.inl (by omega)
    · exact Or.inl (by omega)
    · exact Or.inl (by omega)
    · obtain ⟨h1e, h1l⟩ := h1
      obtain ⟨h2e, h2l⟩ := h2
      exact Or.inr ⟨by omega, Nat.lt_trans h1l h2l⟩

/-- Executable adjacent-pair check: `chainB r l` holds when every adjacent
pair of `l` satisfies `r`. -/
def chainB {α : Type} (r : α → α → Bool) : List α → Bool
  | [] => true
  | [_] => true
  | a :: b :: rest => r a b && chainB r (b :: rest)

/-- `clusterOrder`, Bool-valued. -/
def clusterOrderB (a b : ChatMessage) : Bool :=
  decide (b.created_at < a.created_at) ||
    (decide (b.created_at = a.created_at) && decide (a.message_id < b.message_id))

/-- A database whose rows, restricted to the partition `chat`, are in the
table's clustering order (the shape every ScyllaDB read of that partition
returns). -/
def clusteredForChat (chat : Uuid) (db : List ChatMessage) : Prop :=
  chainB clusterOrderB (db.filter (fun m => m.chat_id == chat)) = true

instance (chat : Uuid) (db : List ChatMessage) : Decidable (clusteredForChat chat db) :=
  inferInstanceAs
    (Decidable (chainB clusterOrderB (db.filter (fun m => m.chat_id == chat)) = true))

/-- History hydration (`router.rs` lines 46-63): iterate the fetched rows
in the order the store returned them, skip soft-deleted rows, build a
payload from each surviving row (`username` is the author UUID rendered,
`text` the stored content) and write it to the client. -/
def hydrationPayloads (messages : List ChatMessage) : List MessagePayload :=
  (messages.filter (fun m => !m.is_deleted)).map
    (fun m => payloadFromRow m (uuidRender m.user_id) m.content)

/-- Everything the session writes to the client, in order: the hydration
payloads — written by the history loop, which runs before `send_task` is
spawned — followed by the live payloads `send_task` later forwards. The
subscription `rx` is created before the history fetch, so live messages
published during the fetch are queued in `rx` and come out after the
history writes. -/
def sessionClientStream (db : List ChatMessage) (chat : Uuid)
    (live : List MessagePayload) : List MessagePayload :=
  hydrationPayloads (get_chat_messages db chat 100) ++ live

/-- Chronological (oldest-first) order of a payload list, judged by the
`ts` field. -/
def chronologicalByTs (l : List MessagePayload) : Prop :=
  chainB (fun p q => decide (p.ts ≤ q.ts)) l = true

instance (l : List MessagePayload) : Decidable (chronologicalByTs l) :=
  inferInstanceAs (Decidable (chainB (fun p q => decide (p.ts ≤ q.ts)) l = true))

/-- The steps of `websocket` (`router.rs` lines 26-164) in source order:
parse the room id as a UUID (27), get-or-create the room and subscribe to
its channel (35-42), split the socket (44), fetch history from the store
(46), forward the non-deleted history rows (47-68), spawn the outbound
pump (70), spawn the inbound pump (93), await/cancel the pair (153-156),
and run the empty-room removal check (158-164). -/
inductive ConnectStep
  | parseRoomUuid
  | subscribeRoomChannel
  | splitStream
  | fetchHistory
  | forwardHistory
  | spawnSendTask
  | spawnRecvTask
  | awaitTasks
  | removeRoomIfEmpty
deriving DecidableEq, BEq

/-- The connect sequence of `websocket`, straight-line, in source order. -/
def websocketConnectSequence : List ConnectStep :=
  [ConnectStep.parseRoomUuid, ConnectStep.subscribeRoomChannel,
   ConnectStep.splitStream, ConnectStep.fetchHistory,
   ConnectStep.forwardHistory, ConnectStep.spawnSendTask,
   ConnectStep.spawnRecvTask, ConnectStep.awaitTasks,
   ConnectStep.removeRoomIfEmpty]

/-- The outcome of one `ChatMessageStore::create_message` call as the inbound
pump observes it (`ScyllaResult<ChatMessage>`): the stored row on success. -/
inductive CreateResult
  | ok (m : ChatMessage)
  | err
deriving DecidableEq

/-- One frame delivered by `ws_receiver` to the inbound pump: a `Text`
frame together with its `serde_json::from_str::<ClientKind>` parse result
(`none` when parsing failed), or any non-`Text` frame (skipped by the
`let Message::Text(text) = msg else continue` pattern). -/
inductive InFrame
  | textFrame (parsed : Option ClientKind)
  | otherFrame
deriving DecidableEq

/-- The observable actions of one inbound-pump iteration, in order:
a `tracing::warn!` for an unparseable frame, a `tracing::warn!` carrying
`text.len()` for a rejected chat text, a `create_message(chat, author,
content)` call issued to the store, a `room.sender.send(payload)` publish. -/
inductive InAction
  | warnParseFailed
  | warnInvalidLength (len : Nat)
  | persistCall (chat author : Uuid) (content : String)
  | publish (p : MessagePayload)
deriving DecidableEq

/-- Whether an inbound-pump action is a `tracing::warn!` log emission. -/
def isLogAction : InAction → Bool
  | InAction.warnParseFailed => true
  | InAction.warnInvalidLength _ => true
  | _ => false

/-- One iteration of the inbound pump loop body (`recv_task`, `router.rs`
lines 97-151) on one delivered frame. `store` gives the outcome of the
`create_message` call the pump would issue; `roomPresent` is whether
`ROOMS.get(&room_id)` still finds the room at publish time. Returns the
actions taken, in order, and whether the loop goes on to the next frame
(the loop stops only when the stream itself ends, so every frame
continues).

Branches, faithful to the source: a non-`Text` frame is skipped; a parse
failure warns and continues; `Join{username}` persists the synthetic
announcement `"<username> joined the room"` authored by `Uuid::nil()` and,
on success, publishes it under the `"[system]"` username; `Chat(message)`
trims the text, rejects an empty or over-5000-byte trimmed text with a
warning carrying the trimmed byte length, otherwise persists the trimmed
text under the client-supplied author id and, on success, publishes the
stored row's payload under the client-supplied username. A failed
`create_message` produces no further action. -/
def recvStep (chat_id : Uuid) (roomPresent : Bool)
    (store : Uuid → Uuid → String → CreateResult) :
    InFrame → List InAction × Bool
  | InFrame.otherFrame => ([], true)
  | InFrame.textFrame none => ([InAction.warnParseFailed], true)
  | InFrame.textFrame (some (ClientKind.join username)) =>
      let text := username ++ " joined the room"
      match store chat_id uuidNil text with
      | CreateResult.ok db_msg =>
          ([InAction.persistCall chat_id uuidNil text]
            ++ (if roomPresent
                then [InAction.publish (payloadFromRow db_msg "[system]" text)]
                else []), true)
      | CreateResult.err => ([InAction.persistCall chat_id uuidNil text], true)
  | InFrame.textFrame (some (ClientKind.chat message)) =>
      let text := rustTrim message.text
      if text = "" ∨ 5000 < utf8Len text then
        ([InAction.warnInvalidLength (utf8Len text)], true)
      else
        match store chat_id message.user_id text with
        | CreateResult.ok db_msg =>
            ([InAction.persistCall chat_id message.user_id text]
              ++ (if roomPresent
                  then [InAction.publish (payloadFromRow db_msg message.username text)]
                  else []), true)
        | CreateResult.err =>
            ([InAction.persistCall chat_id message.user_id text], true)

/-- One event received from the broadcast subscription by the outbound
pump: `Ok(msg)`, `Err(RecvError::Closed)` or `Err(RecvError::Lagged(n))`
with the skipped-count `n`. -/
inductive RecvEvent
  | received (msg : MessagePayload)
  | closed
  | lagged (n : Nat)
deriving DecidableEq

/-- The result of `ws_sender.send(Message::Text(..))` for one write. -/
inductive WriteOutcome
  | ok
  | failed
deriving DecidableEq, BEq

/-- The observable actions of one outbound-pump iteration: a serialized
payload written to the client stream, or a `tracing::warn!` carrying the
lag skipped-count. -/
inductive OutAction
  | sendText (p : MessagePayload)
  | warnLagged (n : Nat)
deriving DecidableEq

/-- One iteration of the outbound pump loop (`send_task`, `router.rs`
lines 70-91): receive one event from the subscription; on `Ok(msg)`,
serialize and write it, breaking the loop if and only if the write fails;
on `Closed`, break; on `Lagged(n)`, warn and continue. `write` gives the
result of the client-stream write for the payload. Returns the actions
taken and whether the loop continues. -/
def sendStep (write : MessagePayload → WriteOutcome) :
    RecvEvent → List OutAction × Bool
  | RecvEvent.received msg =>
      match write msg with
      | WriteOutcome.ok => ([OutAction.sendText msg], true)
      | WriteOutcome.failed => ([OutAction.sendText msg], false)
  | RecvEvent.closed => ([], false)
  | RecvEvent.lagged n => ([OutAction.warnLagged n], true)

/-- The registry state for one fixed room id. `registered`: the id is
present in the `ROOMS` map. `subs`: the `receiver_count` of the room's
broadcast channel, i.e. the live subscriptions sessions hold (removing
the map entry does not drop them). `armed`: some departing session's
`ROOMS.get(..) && receiver_count() == 0` check has passed and its
`ROOMS.remove` has not run yet. -/
structure RegState where
  registered : Bool
  subs : Nat
  armed : Bool
deriving DecidableEq

/-- The atomic steps sessions perform against the registry for one room id
(`router.rs`): `join` is `ROOMS.entry(id).or_insert_with(..).subscribe()`
(lines 35-42), atomic under the entry lock — it creates the room if absent
and adds one subscriber; `dropSub` is a session's broadcast receiver being
dropped when its tasks end; `checkEmpty` is the guarded read
`if let Some(room) = ROOMS.get(&id) && room.sender.receiver_count() == 0`
(lines 158-159), after which the read guard is dropped; `removeRoom` is
the separate `ROOMS.remove(&id)` (line 162), run by the session whose
check passed. -/
inductive RegOp
  | join
  | dropSub
  | checkEmpty
  | removeRoom
deriving DecidableEq

/-- The effect of one registry step. `removeRoom` removes only the map
entry: subscriptions other sessions hold stay live (`subs` unchanged). -/
def regStep : RegState → RegOp → RegState
  | s, RegOp.join =>
      if s.registered then { s with subs := s.subs + 1 }
      else { registered := true, subs := 1, armed := s.armed }
  | s, RegOp.dropSub => { s with subs := s.subs - 1 }
  | s, RegOp.checkEmpty => { s with armed := s.registered && s.subs == 0 }
  | s, RegOp.removeRoom =>
      if s.armed then { s with registered := false, armed := false } else s

/-- Run a sequence of registry steps. -/
def regRun (s : RegState) (ops : List RegOp) : RegState := ops.foldl regStep s

/-- The registry before any session touched this room id. -/
def regInit : RegState := { registered := false, subs := 0, armed := false }

/-- `ChatMessageStore::create_message` (scylladb/src/lib.rs lines 142-179):
draws `Uuid::new_v4()` for `message_id`, stamps `created_at := Utc::now()`,
and inserts the row with `updated_at = NULL`, `is_deleted = false` into the
`messages` table (and the secondary `user_messages` table). The returned
row is the value the inbound pump broadcasts. `entropy` is the 128-bit
randomness drawn by `new_v4`, `now` the clock reading in milliseconds. -/
def create_message (entropy : Nat) (now : Int) (chat_id user_id : Uuid)
    (content : String) : ChatMessage :=
  { message_id := uuidNewV4 entropy
    chat_id := chat_id
    user_id := user_id
    content := content
    created_at := now
    updated_at := none
    is_deleted := false }

/-- `ChatMessageStore::get_message` (scylladb/src/lib.rs lines 181-201):
`SELECT .. WHERE message_id = ?` through the secondary index,
`maybe_first_row` — the first row carrying that message id. -/
def get_message (db : List ChatMessage) (message_id : Uuid) :
    Option ChatMessage :=
  db.find? (fun m => m.message_id == message_id)

/-- The per-row effect of the prepared statement `UPDATE messages SET
content = ?, updated_at = ? WHERE chat_id = ? AND created_at = ? AND
message_id = ?`: rows matching the full primary key get the new content
and update timestamp, all other rows are untouched. -/
def applyUpdateContent (new_content : String) (upd : Int) (chat : Uuid)
    (created : Int) (mid : Uuid) (m : ChatMessage) : ChatMessage :=
  if m.chat_id = chat ∧ m.created_at = created ∧ m.message_id = mid then
    { m with content := new_content, updated_at := some upd }
  else m

/-- `ChatMessageStore::update_message` (scylladb/src/lib.rs lines 226-248):
look the message up by id; if absent, do nothing; otherwise run the
content UPDATE keyed by the found row's `chat_id`, `created_at` (at
millisecond precision, the column's own precision) and the id. -/
def update_message (db : List ChatMessage) (message_id : Uuid)
    (new_content : String) (nowMillis : Int) : List ChatMessage :=
  match get_message db message_id with
  | none => db
  | some m =>
      db.map (applyUpdateContent new_content nowMillis m.chat_id m.created_at message_id)

/-- The per-row effect of the prepared statement `UPDATE messages SET
is_deleted = true, updated_at = ? WHERE chat_id = ? AND created_at = ?
AND message_id = ?`. -/
def applySoftDelete (upd : Int) (chat : Uuid) (created : Int) (mid : Uuid)
    (m : ChatMessage) : ChatMessage :=
  if m.chat_id = chat ∧ m.created_at = created ∧ m.message_id = mid then
    { m with is_deleted := true, updated_at := some upd }
  else m

/-- `ChatMessageStore::delete_message` (scylladb/src/lib.rs lines 250-266):
look the message up by id; if absent, do nothing; otherwise run the
soft-delete UPDATE keyed by the found row's primary key. The row is never
physically removed. -/
def delete_message (db : List ChatMessage) (message_id : Uuid)
    (nowMillis : Int) : List ChatMessage :=
  match get_message db message_id with
  | none => db
  | some m =>
      db.map (applySoftDelete nowMillis m.chat_id m.created_at message_id)

/-- A two-row example table for room 7, in clustering order (the row with
`created_at` 2000 precedes the row with 1000). -/
def exDb : List ChatMessage :=
  [{ message_id := 2, chat_id := 7, user_id := 11, content := "second",
     created_at := 2000, updated_at := none, is_deleted := false },
   { message_id := 1, chat_id := 7, user_id := 10, content := "first",
     created_at := 1000, updated_at := none, is_deleted := false }]

/-- A `chainB` check yields an adjacent-pair `Chain'`. -/
theorem chainB_chain' {α : Type} (r : α → α → Bool) (l : List α)
    (h : chainB r l = true) : List.Chain' (fun a b => r a b = true) l := by
  induction l with
  | nil => simp
  | cons a t ih =>
      cases t with
      | nil => simp
      | cons b rest =>
          simp only [chainB, Bool.and_eq_true] at h
          exact List.chain'_cons.mpr ⟨h.1, ih h.2⟩

/-- The Bool clustering comparator decides the Prop clustering order. -/
theorem clusterOrderB_iff (a b : ChatMessage) :
    clusterOrderB a b = true ↔ clusterOrder a b := by
  simp [clusterOrderB, clusterOrder]

/-- Mapping a projection `g` over rows transformed by an operation `f`
that preserves `g` gives the original projections. -/
theorem map_after_map {α β : Type} (f : α → α) (g : α → β)
    (h : ∀ a, g (f a) = g a) (l : List α) : (l.map f).map g = l.map g := by
  induction l with
  | nil => rfl
  | cons a t ih => simp only [List.map_cons, h a, ih]

/-- The version nibble of every `uuidNewV4` draw is 4. -/
theorem uuidNewV4_version (e : Nat) : uuidVersion (uuidNewV4 e) = 4 := by
  simp only [uuidNewV4, uuidVersion]
  norm_num
  omega

/-- C4 (code bug): the empty-room removal race. The interleaving: session A
joins the room and its subscription is dropped when it departs; A's guarded
check `ROOMS.get(..) && receiver_count() == 0` passes and the guard is
released; session B joins the same id (finding the entry present and
subscribing); then A's separate `ROOMS.remove` runs. The resulting state has
the room id absent from the registry while B holds one live subscription —
the code removed a room "with no active connections" out from under a
concurrent joiner, so presence-in-registry does not coincide with a positive
subscriber count. -/
theorem C4_registry_race :
    regRun regInit
      [RegOp.join, RegOp.dropSub, RegOp.checkEmpty, RegOp.join, RegOp.removeRoom]
      = { registered := false, subs := 1, armed := false }
    ∧ (regRun regInit
        [RegOp.join, RegOp.dropSub, RegOp.checkEmpty, RegOp.join, RegOp.removeRoom]).registered
        = false
    ∧ 0 < (regRun regInit
        [RegOp.join, RegOp.dropSub, RegOp.checkEmpty, RegOp.join, RegOp.removeRoom]).subs := by
  decide

/-- C5: in the `websocket` connect sequence the subscription to the room's
broadcast channel (`ROOMS.entry(..).subscribe()`, lines 35-42) is created
strictly before the history fetch (`get_chat_messages`, line 46) is issued. -/
theorem C5_subscribe_before_fetch :
    websocketConnectSequence.indexOf ConnectStep.subscribeRoomChannel
        < websocketConnectSequence.indexOf ConnectStep.fetchHistory
    ∧ websocketConnectSequence.indexOf ConnectStep.fetchHistory
        < websocketConnectSequence.length := by
  decide

/-- C6 (amended): every outbound event serializes as a JSON object whose
fields are, in order, "user_id" (carrying the store-assigned message id),
"username", "text" and "ts" (the store-assigned creation timestamp in
milliseconds, cast to u64); there is no field named "id", and the id and
timestamp values come from the stored row, never from the client. -/
theorem C6_event_fields (db_msg : ChatMessage) (username text : String) :
    (payloadFromRow db_msg username text).jsonFields.map Prod.fst
      = ["user_id", "username", "text", "ts"]
    ∧ (payloadFromRow db_msg username text).user_id = db_msg.message_id
    ∧ (payloadFromRow db_msg username text).ts = u64_of_i64 db_msg.created_at
    ∧ (payloadFromRow db_msg username text).username = username
    ∧ (payloadFromRow db_msg username text).text = text :=
  ⟨rfl, rfl, rfl, rfl, rfl⟩

/-- C6, counterexample: at a concrete stored row the serialized event has no
"id" member — the message id travels under the key "user_id". -/
theorem C6_counterexample :
    "id" ∉ ((payloadFromRow
        { message_id := 9, chat_id := 7, user_id := 5, content := "hi",
          created_at := 1234, updated_at := none, is_deleted := false }
        "alice" "hi").jsonFields.map Prod.fst)
    ∧ ((payloadFromRow
        { message_id := 9, chat_id := 7, user_id := 5, content := "hi",
          created_at := 1234, updated_at := none, is_deleted := false }
        "alice" "hi").jsonFields.map Prod.fst)
      = ["user_id", "username", "text", "ts"] := by
  decide

/-- C7 (amended): `create_message` assigns as identity a version-4 (random)
UUID computed from the drawn entropy alone — two calls drawing the same
entropy yield the same id whatever their times, so the id carries no time
ordering; chronological order is carried by the store-assigned `created_at`
(the clustering key), which `create_message` sets to the clock reading. -/
theorem C7_message_id_random (e : Nat) (now now' : Int) (c u c' u' : Uuid)
    (s s' : String) :
    (create_message e now c u s).message_id = uuidNewV4 e
    ∧ uuidVersion (create_message e now c u s).message_id = 4
    ∧ (create_message e now c u s).message_id
        = (create_message e now' c' u' s').message_id
    ∧ (create_message e now c u s).created_at = now :=
  ⟨rfl, uuidNewV4_version e, rfl, rfl⟩

/-- C7, counterexample: two successive `create_message` calls (the second at
a strictly later clock reading) whose entropy draws come out descending
produce a later message whose id is NOT ordered after the earlier one's —
`Uuid::new_v4` ids are random, not time-ordered. -/
theorem C7_counterexample :
    (1000 : Int) < 2000
    ∧ ¬ (create_message (2 ^ 70) 1000 7 5 "first").message_id
        < (create_message 0 2000 7 5 "second").message_id := by
  decide

/-- C8: one outbound-pump iteration: a lag notification with skipped-count
`n` produces exactly a logged warning carrying `n` and the loop continues; a
channel-closed signal terminates the loop with no action; a received message
is serialized and written, and the loop continues exactly when the write
succeeded. -/
theorem C8_outbound_pump (write : MessagePayload → WriteOutcome) (n : Nat)
    (p : MessagePayload) :
    sendStep write (RecvEvent.lagged n) = ([OutAction.warnLagged n], true)
    ∧ sendStep write RecvEvent.closed = ([], false)
    ∧ sendStep write (RecvEvent.received p)
        = ([OutAction.sendText p], write p == WriteOutcome.ok) := by
  refine ⟨rfl, rfl, ?_⟩
  cases h : write p <;> simp only [sendStep, h] <;> rfl

/-- The content UPDATE touches only `content` and `updated_at` of any row. -/
theorem applyUpdateContent_fields (c : String) (t : Int) (ch : Uuid) (cr : Int)
    (mid : Uuid) (m : ChatMessage) :
    (applyUpdateContent c t ch cr mid m).chat_id = m.chat_id
    ∧ (applyUpdateContent c t ch cr mid m).created_at = m.created_at
    ∧ (applyUpdateContent c t ch cr mid m).message_id = m.message_id
    ∧ (applyUpdateContent c t ch cr mid m).user_id = m.user_id
    ∧ (applyUpdateContent c t ch cr mid m).is_deleted = m.is_deleted := by
  unfold applyUpdateContent
  split <;> exact ⟨rfl, rfl, rfl, rfl, rfl⟩

/-- The soft-delete UPDATE touches only `is_deleted` and `updated_at`. -/
theorem applySoftDelete_fields (t : Int) (ch : Uuid) (cr : Int) (mid : Uuid)
    (m : ChatMessage) :
    (applySoftDelete t ch cr mid m).chat_id = m.chat_id
    ∧ (applySoftDelete t ch cr mid m).created_at = m.created_at
    ∧ (applySoftDelete t ch cr mid m).message_id = m.message_id
    ∧ (applySoftDelete t ch cr mid m).user_id = m.user_id
    ∧ (applySoftDelete t ch cr mid m).content = m.content := by
  unfold applySoftDelete
  split <;> exact ⟨rfl, rfl, rfl, rfl, rfl⟩

/-- C9: `update_message` and `delete_message` preserve, row for row, the
room id (`chat_id`), the creation timestamp, the message id and the author;
`update_message` additionally preserves the soft-delete flag and changes at
most `content` and `updated_at`, `delete_message` additionally preserves the
content and changes at most `is_deleted` (to true) and `updated_at`; neither
removes a row (the table's length is unchanged). -/
theorem C9_update_delete_frame (db : List ChatMessage) (mid : Uuid) (c : String)
    (t t' : Int) :
    ((update_message db mid c t).map ChatMessage.chat_id = db.map ChatMessage.chat_id
     ∧ (update_message db mid c t).map ChatMessage.created_at = db.map ChatMessage.created_at
     ∧ (update_message db mid c t).map ChatMessage.message_id = db.map ChatMessage.message_id
     ∧ (update_message db mid c t).map ChatMessage.user_id = db.map ChatMessage.user_id
     ∧ (update_message db mid c t).map ChatMessage.is_deleted = db.map ChatMessage.is_deleted
     ∧ (update_message db mid c t).length = db.length
     ∧ ∀ m' ∈ update_message db mid c t,
         (m'.content = c ∧ m'.updated_at = some t) ∨ m' ∈ db)
    ∧ ((delete_message db mid t').map ChatMessage.chat_id = db.map ChatMessage.chat_id
     ∧ (delete_message db mid t').map ChatMessage.created_at = db.map ChatMessage.created_at
     ∧ (delete_message db mid t').map ChatMessage.message_id = db.map ChatMessage.message_id
     ∧ (delete_message db mid t').map ChatMessage.user_id = db.map ChatMessage.user_id
     ∧ (delete_message db mid t').map ChatMessage.content = db.map ChatMessage.content
     ∧ (delete_message db mid t').length = db.length
     ∧ ∀ m' ∈ delete_message db mid t',
         (m'.is_deleted = true ∧ m'.updated_at = some t') ∨ m' ∈ db) := by
  constructor
  · unfold update_message
    cases hg : get_message db mid with
    | none => exact ⟨rfl, rfl, rfl, rfl, rfl, rfl, fun m' hm' => Or.inr hm'⟩
    | some m =>
      refine ⟨map_after_map _ _ (fun a => (applyUpdateContent_fields c t m.chat_id m.created_at mid a).1) db,
        map_after_map _ _ (fun a => (applyUpdateContent_fields c t m.chat_id m.created_at mid a).2.1) db,
        map_after_map _ _ (fun a => (applyUpdateContent_fields c t m.chat_id m.created_at mid a).2.2.1) db,
        map_after_map _ _ (fun a => (applyUpdateContent_fields c t m.chat_id m.created_at mid a).2.2.2.1) db,
        map_after_map _ _ (fun a => (applyUpdateContent_fields c t m.chat_id m.created_at mid a).2.2.2.2) db,
        by simp, ?_⟩
      intro m' hm'
      rcases List.mem_map.mp hm' with ⟨m₀, hm₀, rfl⟩
      unfold applyUpdateContent
      split
      · exact Or.inl ⟨rfl, rfl⟩
      · exact Or.inr hm₀
  · unfold delete_message
    cases hg : get_message db mid with
    | none => exact ⟨rfl, rfl, rfl, rfl, rfl, rfl, fun m' hm' => Or.inr hm'⟩
    | some m =>
      refine ⟨map_after_map _ _ (fun a => (applySoftDelete_fields t' m.chat_id m.created_at mid a).1) db,
        map_after_map _ _ (fun a => (applySoftDelete_fields t' m.chat_id m.created_at mid a).2.1) db,
        map_after_map _ _ (fun a => (applySoftDelete_fields t' m.chat_id m.created_at mid a).2.2.1) db,
        map_after_map _ _ (fun a => (applySoftDelete_fields t' m.chat_id m.created_at mid a).2.2.2.1) db,
        map_after_map _ _ (fun a => (applySoftDelete_fields t' m.chat_id m.created_at mid a).2.2.2.2) db,
        by simp, ?_⟩
      intro m' hm'
      rcases List.mem_map.mp hm' with ⟨m₀, hm₀, rfl⟩
      unfold applySoftDelete
      split
      · exact Or.inl ⟨rfl, rfl⟩
      · exact Or.inr hm₀

/-- Every frame leaves the inbound pump running: no branch of the loop body
breaks the loop (the loop ends only when the stream itself does). -/
theorem recvStep_continues (chat : Uuid) (rp : Bool)
    (store : Uuid → Uuid → String → CreateResult) (frame : InFrame) :
    (recvStep chat rp store frame).2 = true := by
  cases frame with
  | otherFrame => rfl
  | textFrame parsed =>
    cases parsed with
    | none => rfl
    | some k =>
      cases k with
      | join username =>
        simp only [recvStep]
        cases store chat uuidNil (username ++ " joined the room") <;> rfl
      | chat message =>
        simp only [recvStep]
        by_cases hv : rustTrim message.text = "" ∨ 5000 < utf8Len (rustTrim message.text)
        · rw [if_pos hv]
        · rw [if_neg hv]
          cases store chat message.user_id (rustTrim message.text) <;> rfl

/-- A published payload always comes from a `create_message` call of the
same iteration that returned `ok`: the payload's `user_id` is the stored
row's id, its `text` the persisted content, its `ts` the stored row's
creation timestamp. -/
theorem recvStep_publish_src (chat : Uuid) (rp : Bool)
    (store : Uuid → Uuid → String → CreateResult) (frame : InFrame)
    (p : MessagePayload)
    (hp : InAction.publish p ∈ (recvStep chat rp store frame).1) :
    ∃ c a s m, store c a s = CreateResult.ok m
      ∧ InAction.persistCall c a s ∈ (recvStep chat rp store frame).1
      ∧ p.user_id = m.message_id ∧ p.text = s
      ∧ p.ts = u64_of_i64 m.created_at := by
  cases frame with
  | otherFrame => simp [recvStep] at hp
  | textFrame parsed =>
    cases parsed with
    | none => simp [recvStep] at hp
    | some k =>
      cases k with
      | join username =>
        cases hst : store chat uuidNil (username ++ " joined the room") with
        | ok m =>
          cases rp with
          | false => simp [recvStep, hst] at hp
          | true =>
            simp only [recvStep, hst, if_true] at hp
            simp at hp
            subst hp
            exact ⟨chat, uuidNil, username ++ " joined the room", m, hst,
              by simp [recvStep, hst], rfl, rfl, rfl⟩
        | err => simp [recvStep, hst] at hp
      | chat message =>
        by_cases hv : rustTrim message.text = "" ∨ 5000 < utf8Len (rustTrim message.text)
        · simp [recvStep, if_pos hv] at hp
        · cases hst : store chat message.user_id (rustTrim message.text) with
          | ok m =>
            cases rp with
            | false => simp [recvStep, if_neg hv, hst] at hp
            | true =>
              simp only [recvStep, if_neg hv, hst, if_true] at hp
              simp at hp
              subst hp
              exact ⟨chat, message.user_id, rustTrim message.text, m, hst,
                by simp [recvStep, if_neg hv, hst], rfl, rfl, rfl⟩
          | err => simp [recvStep, if_neg hv, hst] at hp

/-- When the `create_message` call of an iteration fails, that iteration
publishes nothing and emits no log action either: the failed message is
dropped silently. -/
theorem recvStep_err_silent (chat : Uuid) (rp : Bool)
    (store : Uuid → Uuid → String → CreateResult) (frame : InFrame)
    (c a : Uuid) (s : String)
    (hm : InAction.persistCall c a s ∈ (recvStep chat rp store frame).1)
    (he : store c a s = CreateResult.err) :
    (∀ p, InAction.publish p ∉ (recvStep chat rp store frame).1)
    ∧ ∀ x ∈ (recvStep chat rp store frame).1, isLogAction x = false := by
  cases frame with
  | otherFrame => simp [recvStep] at hm
  | textFrame parsed =>
    cases parsed with
    | none => simp [recvStep] at hm
    | some k =>
      cases k with
      | join username =>
        cases hst : store chat uuidNil (username ++ " joined the room") with
        | ok m =>
          have hcs : c = chat ∧ a = uuidNil ∧ s = username ++ " joined the room" := by
            cases rp with
            | false => simpa [recvStep, hst] using hm
            | true =>
              simp only [recvStep, hst, if_true, List.singleton_append,
                List.mem_cons, List.mem_singleton] at hm
              simpa using hm
          obtain ⟨rfl, rfl, rfl⟩ := hcs
          rw [hst] at he
          exact absurd he (by simp)
        | err =>
          refine ⟨fun p hp => ?_, fun x hx => ?_⟩
          · simp [recvStep, hst] at hp
          · simp only [recvStep, hst, List.mem_singleton] at hx
            subst hx
            rfl
      | chat message =>
        by_cases hv : rustTrim message.text = "" ∨ 5000 < utf8Len (rustTrim message.text)
        · simp [recvStep, if_pos hv] at hm
        · cases hst : store chat message.user_id (rustTrim message.text) with
          | ok m =>
            have hcs : c = chat ∧ a = message.user_id ∧ s = rustTrim message.text := by
              cases rp with
              | false => simpa [recvStep, if_neg hv, hst] using hm
              | true =>
                simp only [recvStep, if_neg hv, hst, if_true, List.singleton_append,
                  List.mem_cons, List.mem_singleton] at hm
                simpa using hm
            obtain ⟨rfl, rfl, rfl⟩ := hcs
            rw [hst] at he
            exact absurd he (by simp)
          | err =>
            refine ⟨fun p hp => ?_, fun x hx => ?_⟩
            · simp [recvStep, if_neg hv, hst] at hp
            · simp only [recvStep, if_neg hv, hst, List.mem_singleton] at hx
              subst hx
              rfl

/-- C2 (amended): the inbound pump publishes a payload only when the
`create_message` call of that same iteration returned success (and the
published record carries the store-assigned id and timestamp); when the
call fails, the message is dropped silently — no publish and also no
logged warning — and the pump continues; no frame terminates the pump, so
a persistence failure never ends the connection. -/
theorem C2_persist_gates_publish (chat : Uuid) (rp : Bool)
    (store : Uuid → Uuid → String → CreateResult) (frame : InFrame) :
    (recvStep chat rp store frame).2 = true
    ∧ (∀ p, InAction.publish p ∈ (recvStep chat rp store frame).1 →
        ∃ c a s m, store c a s = CreateResult.ok m
          ∧ InAction.persistCall c a s ∈ (recvStep chat rp store frame).1
          ∧ p.user_id = m.message_id ∧ p.text = s
          ∧ p.ts = u64_of_i64 m.created_at)
    ∧ (∀ c a s, InAction.persistCall c a s ∈ (recvStep chat rp store frame).1 →
        store c a s = CreateResult.err →
          (∀ p, InAction.publish p ∉ (recvStep chat rp store frame).1)
          ∧ ∀ x ∈ (recvStep chat rp store frame).1, isLogAction x = false) :=
  ⟨recvStep_continues chat rp store frame,
   fun p hp => recvStep_publish_src chat rp store frame p hp,
   fun c a s hm he => recvStep_err_silent chat rp store frame c a s hm he⟩

/-- C2, counterexample: a valid chat command whose `create_message` call
fails is dropped with NO log action at all (the claim's "logged and
dropped" does not hold: the iteration's only action is the failed store
call, and no warning is emitted). -/
theorem C2_counterexample :
    recvStep 7 true (fun _ _ _ => CreateResult.err)
        (InFrame.textFrame (some (ClientKind.chat
          { user_id := 5, username := "alice", text := "hi", ts := 0 })))
      = ([InAction.persistCall 7 5 "hi"], true)
    ∧ ∀ x ∈ (recvStep 7 true (fun _ _ _ => CreateResult.err)
        (InFrame.textFrame (some (ClientKind.chat
          { user_id := 5, username := "alice", text := "hi", ts := 0 })))).1,
        isLogAction x = false := by
  decide

/-- C3: an inbound chat whose (trimmed) text is empty or longer than 5000
UTF-8 bytes is dropped with exactly one logged warning (carrying the byte
length) and the pump continues — it is neither persisted nor published; and
every text an iteration does persist or publish is non-empty and at most
5000 bytes. -/
theorem C3_validation (chat : Uuid) (rp : Bool)
    (store : Uuid → Uuid → String → CreateResult) (message : MessagePayload) :
    (rustTrim message.text = "" ∨ 5000 < utf8Len (rustTrim message.text) →
      recvStep chat rp store (InFrame.textFrame (some (ClientKind.chat message)))
        = ([InAction.warnInvalidLength (utf8Len (rustTrim message.text))], true))
    ∧ (∀ c a s, InAction.persistCall c a s
          ∈ (recvStep chat rp store (InFrame.textFrame (some (ClientKind.chat message)))).1 →
        s ≠ "" ∧ utf8Len s ≤ 5000)
    ∧ (∀ p, InAction.publish p
          ∈ (recvStep chat rp store (InFrame.textFrame (some (ClientKind.chat message)))).1 →
        p.text ≠ "" ∧ utf8Len p.text ≤ 5000) := by
  by_cases hv : rustTrim message.text = "" ∨ 5000 < utf8Len (rustTrim message.text)
  · refine ⟨fun _ => by simp only [recvStep, if_pos hv], ?_, ?_⟩
    · intro c a s hmem
      simp only [recvStep, if_pos hv] at hmem
      simp at hmem
    · intro p hmem
      simp only [recvStep, if_pos hv] at hmem
      simp at hmem
  · have hne : rustTrim message.text ≠ "" := fun h => hv (Or.inl h)
    have hlen : utf8Len (rustTrim message.text) ≤ 5000 := by
      by_contra h
      exact hv (Or.inr (by omega))
    refine ⟨fun h => absurd h hv, ?_, ?_⟩
    · intro c a s hmem
      cases hst : store chat message.user_id (rustTrim message.text) with
      | ok m =>
        have hcs : c = chat ∧ a = message.user_id ∧ s = rustTrim message.text := by
          cases rp with
          | false => simpa [recvStep, if_neg hv, hst] using hmem
          | true =>
            simp only [recvStep, if_neg hv, hst, if_true] at hmem
            simpa using hmem
        obtain ⟨rfl, rfl, rfl⟩ := hcs
        exact ⟨hne, hlen⟩
      | err =>
        have hcs : c = chat ∧ a = message.user_id ∧ s = rustTrim message.text := by
          simpa [recvStep, if_neg hv, hst] using hmem
        obtain ⟨rfl, rfl, rfl⟩ := hcs
        exact ⟨hne, hlen⟩
    · intro p hmem
      cases hst : store chat message.user_id (rustTrim message.text) with
      | ok m =>
        cases rp with
        | false => simp [recvStep, if_neg hv, hst] at hmem
        | true =>
          simp only [recvStep, if_neg hv, hst, if_true] at hmem
          simp at hmem
          subst hmem
          exact ⟨hne, hlen⟩
      | err => simp [recvStep, if_neg hv, hst] at hmem

/-- C10: acceptance of an inbound chat is decided on the TRIMMED text with
length measured in UTF-8 bytes: an iteration issues a store write exactly
when the trimmed text is non-empty and at most 5000 bytes (so a
whitespace-only message is rejected, and a message whose trimmed byte
length fits is accepted whatever its untrimmed length); whatever is
persisted and whatever is published carries exactly the trimmed text, as
room `chat` and author `message.user_id`. -/
theorem C10_trim_utf8 (chat : Uuid) (rp : Bool)
    (store : Uuid → Uuid → String → CreateResult) (message : MessagePayload) :
    ((∃ c a s, InAction.persistCall c a s
        ∈ (recvStep chat rp store (InFrame.textFrame (some (ClientKind.chat message)))).1)
      ↔ (rustTrim message.text ≠ "" ∧ utf8Len (rustTrim message.text) ≤ 5000))
    ∧ (∀ c a s, InAction.persistCall c a s
          ∈ (recvStep chat rp store (InFrame.textFrame (some (ClientKind.chat message)))).1 →
        c = chat ∧ a = message.user_id ∧ s = rustTrim message.text)
    ∧ (∀ p, InAction.publish p
          ∈ (recvStep chat rp store (InFrame.textFrame (some (ClientKind.chat message)))).1 →
        p.text = rustTrim message.text) := by
  by_cases hv : rustTrim message.text = "" ∨ 5000 < utf8Len (rustTrim message.text)
  · refine ⟨⟨?_, ?_⟩, ?_, ?_⟩
    · rintro ⟨c, a, s, hmem⟩
      simp only [recvStep, if_pos hv] at hmem
      simp at hmem
    · rintro ⟨hne, hlen⟩
      rcases hv with h | h
      · exact absurd h hne
      · omega
    · intro c a s hmem
      simp only [recvStep, if_pos hv] at hmem
      simp at hmem
    · intro p hmem
      simp only [recvStep, if_pos hv] at hmem
      simp at hmem
  · have hne : rustTrim message.text ≠ "" := fun h => hv (Or.inl h)
    have hlen : utf8Len (rustTrim message.text) ≤ 5000 := by
      by_contra h
      exact hv (Or.inr (by omega))
    refine ⟨⟨fun _ => ⟨hne, hlen⟩, fun _ => ?_⟩, ?_, ?_⟩
    · refine ⟨chat, message.user_id, rustTrim message.text, ?_⟩
      cases hst : store chat message.user_id (rustTrim message.text) with
      | ok m => cases rp <;> simp [recvStep, if_neg hv, hst]
      | err => simp [recvStep, if_neg hv, hst]
    · intro c a s hmem
      cases hst : store chat message.user_id (rustTrim message.text) with
      | ok m =>
        cases rp with
        | false => simpa [recvStep, if_neg hv, hst] using hmem
        | true =>
          simp only [recvStep, if_neg hv, hst, if_true] at hmem
          simpa using hmem
      | err => simpa [recvStep, if_neg hv, hst] using hmem
    · intro p hmem
      cases hst : store chat message.user_id (rustTrim message.text) with
      | ok m =>
        cases rp with
        | false => simp [recvStep, if_neg hv, hst] at hmem
        | true =>
          simp only [recvStep, if_neg hv, hst, if_true] at hmem
          simp at hmem
          subst hmem
          rfl
      | err => simp [recvStep, if_neg hv, hst] at hmem

/-- C1, counterexample: a room with two persisted messages (timestamps 1000
then 2000, stored in clustering order 2000-first) is hydrated in the order
the store returns — most-recent-first — so the forwarded sequence is NOT in
chronological (oldest-first) order: the history loop never reverses the
fetched rows. -/
theorem C1_counterexample :
    clusteredForChat 7 exDb
    ∧ ¬ chronologicalByTs (hydrationPayloads (get_chat_messages exDb 7 100)) := by
  decide

/-- C1 (amended): on join, the session forwards — before any live message —
the non-soft-deleted rows among the at most `H` = 100 rows the store
returns for the room, in the order returned, which is most-recent-first
(reverse chronological), not chronological; soft-deleted rows are never
forwarded, and at most 100 payloads are sent. -/
theorem C1_hydration_order (db : List ChatMessage) (chat : Uuid)
    (live : List MessagePayload) (h : clusteredForChat chat db) :
    (hydrationPayloads (get_chat_messages db chat 100)).length ≤ 100
    ∧ (∀ p ∈ hydrationPayloads (get_chat_messages db chat 100),
        ∃ m, m ∈ db ∧ m.chat_id = chat ∧ m.is_deleted = false
          ∧ p = payloadFromRow m (uuidRender m.user_id) m.content)
    ∧ List.Chain' (fun a b => b.created_at ≤ a.created_at)
        ((get_chat_messages db chat 100).filter (fun m => !m.is_deleted))
    ∧ hydrationPayloads (get_chat_messages db chat 100)
        = ((get_chat_messages db chat 100).filter (fun m => !m.is_deleted)).map
            (fun m => payloadFromRow m (uuidRender m.user_id) m.content)
    ∧ sessionClientStream db chat live
        = hydrationPayloads (get_chat_messages db chat 100) ++ live := by
  refine ⟨?_, ?_, ?_, rfl, rfl⟩
  · have h1 : (hydrationPayloads (get_chat_messages db chat 100)).length
        = ((get_chat_messages db chat 100).filter (fun m => !m.is_deleted)).length := by
      simp [hydrationPayloads]
    rw [h1]
    calc ((get_chat_messages db chat 100).filter (fun m => !m.is_deleted)).length
        ≤ (get_chat_messages db chat 100).length := List.length_filter_le _ _
      _ ≤ 100 := by simp [get_chat_messages, List.length_take]
  · intro p hp
    simp only [hydrationPayloads, List.mem_map, List.mem_filter] at hp
    obtain ⟨m, ⟨hmTake, hnd⟩, rfl⟩ := hp
    have hmFilter : m ∈ db.filter (fun m => m.chat_id == chat) :=
      (List.take_sublist _ _).subset hmTake
    have hmdb := List.mem_filter.mp hmFilter
    refine ⟨m, hmdb.1, by simpa using hmdb.2, by simpa using hnd, rfl⟩
  · have hchain : List.Chain' (fun a b => clusterOrderB a b = true)
        (db.filter (fun m => m.chat_id == chat)) :=
      chainB_chain' clusterOrderB _ h
    have hle : List.Chain' (fun a b : ChatMessage => b.created_at ≤ a.created_at)
        (db.filter (fun m => m.chat_id == chat)) := by
      refine hchain.imp ?_
      intro a b hab
      rcases (clusterOrderB_iff a b).mp hab with h1 | ⟨h1, _⟩
      · exact le_of_lt h1
      · exact le_of_eq h1
    haveI : IsTrans ChatMessage (fun a b : ChatMessage => b.created_at ≤ a.created_at) :=
      ⟨fun _ _ _ h1 h2 => le_trans h2 h1⟩
    have hpw : List.Pairwise (fun a b : ChatMessage => b.created_at ≤ a.created_at)
        (db.filter (fun m => m.chat_id == chat)) :=
      List.chain'_iff_pairwise.mp hle
    have hpwTake : List.Pairwise (fun a b : ChatMessage => b.created_at ≤ a.created_at)
        (get_chat_messages db chat 100) :=
      hpw.sublist (List.take_sublist _ _)
    exact (hpwTake.filter _).chain'

/-- C1, witness: the amended hydration theorem evaluated at the concrete
two-row table `exDb`, room 7, with no live messages. -/
theorem C1_hydration_order_witness :
    clusteredForChat 7 exDb
    ∧ ((hydrationPayloads (get_chat_messages exDb 7 100)).length ≤ 100
      ∧ (∀ p ∈ hydrationPayloads (get_chat_messages exDb 7 100),
          ∃ m, m ∈ exDb ∧ m.chat_id = 7 ∧ m.is_deleted = false
            ∧ p = payloadFromRow m (uuidRender m.user_id) m.content)
      ∧ List.Chain' (fun a b => b.created_at ≤ a.created_at)
          ((get_chat_messages exDb 7 100).filter (fun m => !m.is_deleted))
      ∧ hydrationPayloads (get_chat_messages exDb 7 100)
          = ((get_chat_messages exDb 7 100).filter (fun m => !m.is_deleted)).map
              (fun m => payloadFromRow m (uuidRender m.user_id) m.content)
      ∧ sessionClientStream exDb 7 []
          = hydrationPayloads (get_chat_messages exDb 7 100) ++ []) :=
  ⟨by decide, C1_hydration_order exDb 7 [] (by decide)⟩
